import Mathlib

/-!
Shallow embedding of the core of `roblox-account-manager-mac`
(account registry with a pending-override queue, launch orchestration,
auth protocol client, and launch-directive formatting), together with
theorems checking the natural-language specification against the code.

The JavaScript sources embedded here are:
* `src/models/Account.js` (the `Account` class),
* `src/RobloxAccountManager.js` (`addAccount`, `deleteAccount`,
  `setNextServerForAccount`, `launchGame`, `initialize`, accessors),
* `src/services/RobloxAPIService.js` (`getCSRFToken`, `getAuthTicket`,
  `formatLaunchURL`).

JavaScript numbers that occur in the modelled code are integer-valued
(place ids, job-less epoch seconds, tracker-id components), so numbers
are embedded as `Int`/`Nat`; `Math.random()` is embedded as an explicit
rational parameter `r` with `0 ≤ r < 1`.  Strings are Lean `String`s.
All definitions are computable and kernel-reducible on concrete input.
-/

/-- A JavaScript value that may be either a string or an (integer) number;
used for `placeId` / `userId`, which the source passes around as
`string|number`. -/
inductive JSVal where
  | str (s : String)
  | num (n : Int)
deriving DecidableEq, Repr

/-- Fuel-based accumulator loop producing the decimal digits of `n`
(most significant first), mirroring how `Number.prototype.toString`
renders a nonnegative integer.  Structural in the fuel so that the
kernel can evaluate it. -/
def toDecAux : Nat → Nat → List Char → List Char
  | 0, _, acc => acc
  | f+1, n, acc =>
    let acc1 := Char.ofNat (48 + n % 10) :: acc
    if n < 10 then acc1 else toDecAux f (n / 10) acc1

/-- Decimal rendering of a nonnegative integer, as JavaScript string
conversion produces for an integer-valued number. -/
def jsNatToString (n : Nat) : String := ⟨toDecAux (n+1) n []⟩

/-- Decimal rendering of an integer (with a leading minus sign when
negative), as JavaScript string conversion produces. -/
def jsIntToString (n : Int) : String :=
  if n < 0 then "-" ++ jsNatToString (-n).toNat else jsNatToString n.toNat

/-- Stringification of a `string|number` value, as a JS template literal
(`` `${v}` ``) produces. -/
def JSVal.toJSString : JSVal → String
  | .str s => s
  | .num n => jsIntToString n

/-- Value of a nonempty all-digit character list, `none` otherwise. -/
def digitsVal : List Char → Option Nat
  | [] => none
  | cs =>
    cs.foldl
      (fun acc c => acc.bind (fun v =>
        if c.isDigit then some (v * 10 + (c.toNat - 48)) else none))
      (some 0)

/-- JavaScript `ToNumber` on a string, restricted to optionally-signed
decimal *integer* numerals (the only shape place ids and job ids take in
this program): surrounding whitespace is ignored, the empty string
converts to `0`, and anything that is not an integer numeral is NaN
(`none`). -/
def strToNumber (s : String) : Option Int :=
  let cs := (s.data.dropWhile Char.isWhitespace).reverse.dropWhile Char.isWhitespace |>.reverse
  match cs with
  | [] => some 0
  | '-' :: rest => (digitsVal rest).map (fun v => -(v : Int))
  | '+' :: rest => (digitsVal rest).map (fun v => (v : Int))
  | _ => (digitsVal cs).map (fun v => (v : Int))

/-- JavaScript loose equality (`==`) restricted to the `string|number`
values the modelled code compares: same-type values compare structurally,
and a string compared against a number is first coerced with `ToNumber`
(NaN compares unequal). -/
def looseEq : JSVal → JSVal → Bool
  | .str a, .str b => a = b
  | .num a, .num b => a = b
  | .str a, .num b => strToNumber a = some b
  | .num a, .str b => strToNumber b = some a

/-- Whether `parseInt(v)` yields a number (not NaN): after skipping
leading whitespace and an optional sign, at least one decimal digit must
follow.  Numbers always stringify to a parseable form.  This models the
`isNaN(parseInt(placeId))` validation in `launchGame`. -/
def parseIntOk (v : JSVal) : Bool :=
  match v with
  | .num _ => true
  | .str s =>
    let t := s.data.dropWhile Char.isWhitespace
    let t1 := match t with
      | '-' :: rest => rest
      | '+' :: rest => rest
      | _ => t
    match t1 with
    | [] => false
    | c :: _ => c.isDigit

/-- Characters left unescaped by JavaScript `encodeURIComponent`:
ASCII letters, digits, and `- _ . ! ~ * ' ( )`. -/
def isUnescapedURIChar (c : Char) : Bool :=
  c.isAlpha || c.isDigit ||
    c ∈ ['-', '_', '.', '!', '~', '*', Char.ofNat 39, '(', ')']

/-- Uppercase hexadecimal digit for `n < 16`. -/
def hexUpper (n : Nat) : Char :=
  if n < 10 then Char.ofNat (48 + n) else Char.ofNat (55 + n)

/-- UTF-8 encoding of a single character, as a list of byte values. -/
def utf8Bytes (c : Char) : List Nat :=
  let n := c.toNat
  if n < 128 then [n]
  else if n < 2048 then [192 + n / 64, 128 + n % 64]
  else if n < 65536 then [224 + n / 4096, 128 + (n / 64) % 64, 128 + n % 64]
  else [240 + n / 262144, 128 + (n / 4096) % 64, 128 + (n / 64) % 64, 128 + n % 64]

/-- JavaScript `encodeURIComponent`: characters outside the unescaped set
are replaced by the uppercase percent-encoding of their UTF-8 bytes. -/
def encodeURIComponent (s : String) : String :=
  ⟨s.data.foldr
    (fun c acc =>
      (if isUnescapedURIChar c then [c]
       else (utf8Bytes c).foldr
         (fun b a => '%' :: hexUpper (b / 16) :: hexUpper (b % 16) :: a) []) ++ acc)
    []⟩

/-- Case-folding of a single ASCII character, as used when the code
lowercases response-header names. -/
def lowerStr (s : String) : String := ⟨s.data.map Char.toLower⟩

/-! ## Data model (`src/models/Account.js`) -/

/-- A Credential Record, mirroring the fields of the `Account` class.
`lastUsed` and `browserTrackerId` start as `null` (`none`);
`alias`/`description`/`group` are only ever set externally and are
`undefined` (`none`) on a freshly constructed account. -/
structure Account where
  username : String
  userId : JSVal
  securityToken : String
  password : String
  addedAt : String
  lastUsed : Option String
  browserTrackerId : Option String
  aliasName : Option String
  description : Option String
  group : Option String
deriving DecidableEq, Repr

/-- The plain-object form of an account as produced by `Account.toJSON`
and consumed by the `Account` constructor: every field may be absent
(`undefined`/`null`, modelled as `none`). -/
structure AccountJSON where
  username : Option String
  userId : Option JSVal
  securityToken : Option String
  password : Option String
  addedAt : Option String
  lastUsed : Option String
  browserTrackerId : Option String
  aliasName : Option String
  description : Option String
  group : Option String
deriving DecidableEq, Repr

/-- JavaScript `x || d` for an optional string: absent or empty (falsy)
falls back to the default. -/
def strOr (v : Option String) (d : String) : String :=
  match v with
  | some s => if s = "" then d else s
  | none => d

/-- JavaScript `x || null` for an optional string: the empty string is
falsy and collapses to `null`. -/
def strOrNull (v : Option String) : Option String :=
  match v with
  | some s => if s = "" then none else some s
  | none => none

/-- JavaScript `x || d` for an optional `string|number` value: absent,
empty-string and zero are falsy and fall back to the default. -/
def jsvalOr (v : Option JSVal) (d : JSVal) : JSVal :=
  match v with
  | some (.str s) => if s = "" then d else .str s
  | some (.num n) => if n = 0 then d else .num n
  | none => d

/-- The `Account` constructor: applies `|| default` to every field of the
incoming plain object.  `now` is the ISO timestamp the constructor would
take for a missing `addedAt`.  The constructor does not read
`alias`/`description`/`group`. -/
def accountFromData (now : String) (d : AccountJSON) : Account :=
  { username := strOr d.username "Unknown"
    userId := jsvalOr d.userId (.str "")
    securityToken := strOr d.securityToken ""
    password := strOr d.password ""
    addedAt := strOr d.addedAt now
    lastUsed := strOrNull d.lastUsed
    browserTrackerId := strOrNull d.browserTrackerId
    aliasName := none
    description := none
    group := none }

/-- Model of `Account.prototype.toJSON`: a field-for-field plain object. -/
def Account.toJSON (a : Account) : AccountJSON :=
  { username := some a.username
    userId := some a.userId
    securityToken := some a.securityToken
    password := some a.password
    addedAt := some a.addedAt
    lastUsed := a.lastUsed
    browserTrackerId := a.browserTrackerId
    aliasName := a.aliasName
    description := a.description
    group := a.group }

/-- Model of `Account.prototype.generateBrowserTrackerId`, with the single
`Math.random()` draw made explicit as `r`:
`Math.floor(100000 + r*75000).toString() + Math.floor(100000 + r*800000).toString()`. -/
def generateBrowserTrackerId (r : ℚ) : String :=
  jsNatToString (⌊(100000 : ℚ) + r * 75000⌋).toNat ++
    jsNatToString (⌊(100000 : ℚ) + r * 800000⌋).toNat

/-- Whether an optional string field is JavaScript-falsy (`null` or the
empty string), as tested by `if (!account.browserTrackerId)`. -/
def optStrFalsy : Option String → Bool
  | none => true
  | some s => s = ""

/-! ## Registry state (`src/RobloxAccountManager.js`)

JavaScript objects used as string-keyed dictionaries (`this.accounts`)
and `Map`s (`this.nextServers`) both preserve insertion order, keep keys
unique, update in place on an existing key, and append on a new key.
They are embedded as association lists with exactly those operations. -/

/-- Value stored under `k`, if any (keys are unique by construction,
so the first match is the value under `k`). -/
def alistFind {α : Type} : List (String × α) → String → Option α
  | [], _ => none
  | p :: t, k => if p.1 = k then some p.2 else alistFind t k

/-- Insert-or-replace preserving insertion order: an existing key keeps
its position and gets the new value, a new key is appended. -/
def alistInsert {α : Type} : List (String × α) → String → α → List (String × α)
  | [], k, v => [(k, v)]
  | p :: t, k, v => if p.1 = k then (k, v) :: t else p :: alistInsert t k v

/-- Remove the entry under `k` (JS `delete obj[k]` / `Map.delete`). -/
def alistErase {α : Type} : List (String × α) → String → List (String × α)
  | [], _ => []
  | p :: t, k => if p.1 = k then alistErase t k else p :: alistErase t k

/-- A pending-override entry of the `nextServers` queue. -/
structure ServerInfo where
  placeId : JSVal
  jobId : String
  setAt : String
deriving DecidableEq, Repr

/-- The mutable state of a `RobloxAccountManager`: the credential
registry, the last-used place id, and the pending-override queue. -/
structure ManagerState where
  accounts : List (String × Account)
  lastUsedPlaceId : Option JSVal
  nextServers : List (String × ServerInfo)
deriving DecidableEq, Repr

/-- The state built by the `RobloxAccountManager` constructor. -/
def emptyManagerState : ManagerState := ⟨[], none, []⟩

/-- Identity as reported by `RobloxAPIService.getAccountInfo`: a name and
an id, either of which the remote may omit. -/
structure AccountInfo where
  name : Option String
  id : Option JSVal
deriving DecidableEq, Repr

/-- Outcome record for a manager-level operation: the JS return value
is paired with the successor state and the number of `saveAccounts`
persistence writes the operation performed. -/
structure OpOutcome (α : Type) where
  ret : α
  state : ManagerState
  saves : Nat
deriving DecidableEq, Repr

/-! ## Registry operations (`src/RobloxAccountManager.js`) -/

/-- The `Account` instance `addAccount` builds before storing it. -/
def mkAddedAccount (username : String) (userId : JSVal)
    (securityToken password now : String) : Account :=
  ⟨username, userId, securityToken, password, now, none, none, none, none, none⟩

/-- Model of `addAccount(securityToken, password)`.  `info` is the identity
reported by `getAccountInfo` (`none` models the catch-branch taken when
an exception escapes the lookup), `randId` the 8-character random id
drawn from `crypto.randomUUID()` where the code needs one, `now` the
current ISO timestamp.  Returns the account key; the record is stored
with `this.accounts[accountKey] = account` (insert-or-replace) and the
registry is saved once. -/
def addAccount (st : ManagerState) (info : Option AccountInfo)
    (randId securityToken password now : String) : OpOutcome String :=
  match info with
  | some i =>
    let username := strOr i.name "Unknown"
    let userId := jsvalOr i.id (.str randId)
    let accountKey :=
      if username ≠ "Unknown" then username
      else "Account_" ++ userId.toJSString
    let account := mkAddedAccount username userId securityToken password now
    ⟨accountKey, { st with accounts := alistInsert st.accounts accountKey account }, 1⟩
  | none =>
    let accountKey := "Unknown_" ++ randId
    let account := mkAddedAccount "Unknown" (.str randId) securityToken password now
    ⟨accountKey, { st with accounts := alistInsert st.accounts accountKey account }, 1⟩

/-- Model of `deleteAccount(accountName)`: `false` and no change when the key is
absent; otherwise the record is removed with `delete this.accounts[...]`
and the registry saved.  The `nextServers` queue is not touched. -/
def deleteAccount (st : ManagerState) (accountName : String) : OpOutcome Bool :=
  if (alistFind st.accounts accountName).isSome then
    ⟨true, { st with accounts := alistErase st.accounts accountName }, 1⟩
  else ⟨false, st, 0⟩

/-- Model of `setNextServerForAccount(accountName, placeId, jobId)`: `false` when
the account is absent; otherwise `Map.set` upserts the single override
slot for the account and the registry is saved. -/
def setNextServerForAccount (st : ManagerState) (accountName : String)
    (placeId : JSVal) (jobId now : String) : OpOutcome Bool :=
  if (alistFind st.accounts accountName).isSome then
    ⟨true,
     { st with nextServers := alistInsert st.nextServers accountName ⟨placeId, jobId, now⟩ },
     1⟩
  else ⟨false, st, 0⟩

/-- The override-resolution block of `launchGame` (its lines 373–384):
when no explicit job id was passed (`!jobId`: the empty string) and the
queue holds an entry for the account whose `placeId` loosely equals
(`==`) the requested place id, that entry's job id becomes the server to
join, the entry is deleted, and the registry is saved once.  Returns
`(serverToJoin, new queue, number of saves)`. -/
def resolveNextServer (nextServers : List (String × ServerInfo))
    (accountName : String) (placeId : JSVal) (jobId : String) :
    String × List (String × ServerInfo) × Nat :=
  if jobId = "" then
    match alistFind nextServers accountName with
    | some serverInfo =>
      if looseEq serverInfo.placeId placeId then
        (serverInfo.jobId, alistErase nextServers accountName, 1)
      else (jobId, nextServers, 0)
    | none => (jobId, nextServers, 0)
  else (jobId, nextServers, 0)

/-- The `{success, message}` object a launch attempt returns. -/
structure LaunchResult where
  success : Bool
  message : String
deriving DecidableEq, Repr

/-- Everything observable about one `launchGame` call: the returned
result, the successor manager state, the number of `saveAccounts`
writes, whether `apiService.launchGame` (the network-touching stage) was
invoked, and the effective server id that stage was given. -/
structure LaunchOutcome where
  result : LaunchResult
  state : ManagerState
  saves : Nat
  apiCalled : Bool
  serverUsed : String
deriving DecidableEq, Repr

/-- Model of `launchGame(accountName, placeId, jobId)` at the manager level
(lines 363–411 of `RobloxAccountManager.js`), in source order:

1. missing account → early failure naming the account, nothing changed;
2. override resolution (`resolveNextServer`);
3. lazy `browserTrackerId` assignment (random draw `r`) plus a save;
4. `isNaN(parseInt(placeId))` validation → failure message, no API call;
5. `lastUsedPlaceId := placeId` plus a save;
6. delegation to `apiService.launchGame`, whose first action is
   `account.updateLastUsed()` and whose result (abstracted as
   `apiResult`, since it is decided by the remote service) is returned.

`followUser`/`joinVIP` only influence the base request URL built inside
the API service and are not needed at this level. -/
def launchGame (st : ManagerState) (accountName : String) (placeId : JSVal)
    (jobId : String) (r : ℚ) (now : String) (apiResult : LaunchResult) :
    LaunchOutcome :=
  match alistFind st.accounts accountName with
  | none =>
    ⟨⟨false, "Account \"" ++ accountName ++ "\" not found"⟩, st, 0, false, jobId⟩
  | some account =>
    let step := resolveNextServer st.nextServers accountName placeId jobId
    let serverToJoin := step.1
    let ns1 := step.2.1
    let saves1 := step.2.2
    let trackerMissing := optStrFalsy account.browserTrackerId
    let account1 :=
      if trackerMissing then
        { account with browserTrackerId := some (generateBrowserTrackerId r) }
      else account
    let accounts1 :=
      if trackerMissing then alistInsert st.accounts accountName account1
      else st.accounts
    let saves2 := saves1 + (if trackerMissing then 1 else 0)
    if parseIntOk placeId = false then
      ⟨⟨false, "Invalid Place ID. Please enter a valid numeric ID."⟩,
       ⟨accounts1, st.lastUsedPlaceId, ns1⟩, saves2, false, serverToJoin⟩
    else
      let account2 := { account1 with lastUsed := some now }
      ⟨apiResult, ⟨alistInsert accounts1 accountName account2, some placeId, ns1⟩,
       saves2 + 1, true, serverToJoin⟩

/-! ## Snapshot loading (`initialize`, lines 80–121) -/

/-- The JSON value `loadAccountsFromFile` hands to `initialize`:
either the current wrapped format (`data.accounts` is present and
truthy) or the legacy format, where the top-level object is the bare
account mapping itself (no truthy `accounts` key). -/
inductive LoadedData where
  | wrapped (accounts : List (String × AccountJSON))
      (lastUsedPlaceId : Option JSVal)
      (nextServers : Option (List (String × ServerInfo)))
  | legacy (entries : List (String × AccountJSON))
deriving DecidableEq, Repr

/-- JavaScript `x || null` on the loaded `lastUsedPlaceId` field. -/
def jsvalOrNull (v : Option JSVal) : Option JSVal :=
  match v with
  | some (.str s) => if s = "" then none else some (.str s)
  | some (.num n) => if n = 0 then none else some (.num n)
  | none => none

/-- Model of `initialize` (named `initializeManager` here because it is
a Lean keyword): builds the manager state from a loaded snapshot.
`none` models an absent/unreadable file (the registry starts empty).
In the wrapped format every entry goes through the `Account`
constructor, `lastUsedPlaceId` is taken with `|| null`, and
`nextServers` is rebuilt when present; in the legacy format every
top-level entry becomes an account and the other fields keep their
constructor defaults. -/
def initializeManager (now : String) (data : Option LoadedData) : ManagerState :=
  match data with
  | none => emptyManagerState
  | some (.wrapped accs lup ns) =>
    { accounts := accs.map (fun p => (p.1, accountFromData now p.2))
      lastUsedPlaceId := jsvalOrNull lup
      nextServers := match ns with | some l => l | none => [] }
  | some (.legacy entries) =>
    { accounts := entries.map (fun p => (p.1, accountFromData now p.2))
      lastUsedPlaceId := none
      nextServers := [] }

/-! ## Auth protocol client (`src/services/RobloxAPIService.js`) -/

/-- A remote HTTP response as the modelled code observes it: a status
and a list of headers in transmission order. -/
structure HttpResponse where
  status : Nat
  headers : List (String × String)
deriving DecidableEq, Repr

/-- Model of `Headers.get` of the fetch API: case-insensitive header lookup
(first match). -/
def headersGet (hs : List (String × String)) (name : String) : Option String :=
  (hs.find? (fun p => lowerStr p.1 = lowerStr name)).map (·.2)

/-- The lowercased header dictionary `getAuthTicket` builds with
`response.headers.forEach`, looked up at `name` (already lowercase).
A later header with the same lowercased name overwrites an earlier one,
as assignment into a JS object does. -/
def lowerHeaderLookup (hs : List (String × String)) (name : String) :
    Option String :=
  hs.foldl (fun acc p => if lowerStr p.1 = name then some p.2 else acc) none

/-- Model of `getCSRFToken(securityToken)` (lines 89–115): the response to the
POST against the authentication-ticket endpoint is `resp` (`none` models
a transport failure, caught and turned into `null`).  The token is
returned only when the remote answered with status 403 *and* the
`x-csrf-token` header is present and nonempty; every other case is
`null`. -/
def getCSRFToken (resp : Option HttpResponse) : Option String :=
  match resp with
  | none => none
  | some r =>
    if r.status = 403 then
      match headersGet r.headers "x-csrf-token" with
      | some tok => if tok = "" then none else some tok
      | none => none
    else none

/-- Model of `getAuthTicket(securityToken)` (lines 123–168): first obtains a CSRF
token via `getCSRFToken` (whose response is `csrfResp`); on `null` it
returns `null` *without issuing the ticket request*.  Otherwise the
ticket POST is issued (its response is `ticketResp`; `none` models a
transport failure) and the ticket is read from the lowercased header
dictionary under `rbx-authentication-ticket`; a missing or empty header
yields `null`.  The boolean records whether the ticket request was
issued. -/
def getAuthTicket (csrfResp ticketResp : Option HttpResponse) :
    Option String × Bool :=
  match getCSRFToken csrfResp with
  | none => (none, false)
  | some _ =>
    match ticketResp with
    | none => (none, true)
    | some r =>
      match lowerHeaderLookup r.headers "rbx-authentication-ticket" with
      | some t => if t = "" then (none, true) else (some t, true)
      | none => (none, true)

/-- Model of `formatLaunchURL(placeLauncherUrl, authTicket, browserTrackerId,
launchTime)` (lines 222–228): the fixed `roblox-player:` template with
`+`-delimited `key:value` segments and the percent-encoded base URL. -/
def formatLaunchURL (placeLauncherUrl authTicket browserTrackerId : String)
    (launchTime : Nat) : String :=
  "roblox-player:1+launchmode:play+gameinfo:" ++ authTicket ++
    "+launchtime:" ++ jsNatToString launchTime ++
    "+placelauncherurl:" ++ encodeURIComponent placeLauncherUrl ++
    "+browsertrackerid:" ++ browserTrackerId ++
    "+robloxLocale:en_us+gameLocale:en_us+channel:+LaunchExp:InApp"

/-! ## Association-list lemmas -/

/-- Looking up a key just inserted returns the inserted value. -/
theorem alistFind_insert_self {α : Type} (l : List (String × α)) (k : String) (v : α) :
    alistFind (alistInsert l k v) k = some v := by
  induction l with
  | nil => simp [alistInsert, alistFind]
  | cons q t ih =>
    by_cases hq : q.1 = k
    · simp [alistInsert, alistFind, hq]
    · simp only [alistInsert, if_neg hq]
      simpa [alistFind, hq] using ih

/-- Inserting at a key that is already present leaves the key sequence
unchanged. -/
theorem alistInsert_keys {α : Type} (l : List (String × α)) (k : String) (v : α)
    (h : (alistFind l k).isSome = true) :
    (alistInsert l k v).map Prod.fst = l.map Prod.fst := by
  induction l with
  | nil => simp [alistFind] at h
  | cons q t ih =>
    by_cases hq : q.1 = k
    · simp [alistInsert, hq]
    · simp only [alistFind, if_neg hq] at h
      simp [alistInsert, hq, ih h]

/-- Lookup commutes with mapping a function over the stored values. -/
theorem alistFind_map {α β : Type} (f : α → β) (l : List (String × α)) (k : String) :
    alistFind (l.map (fun p => (p.1, f p.2))) k = (alistFind l k).map f := by
  induction l with
  | nil => simp [alistFind]
  | cons q t ih =>
    by_cases hq : q.1 = k
    · simp [alistFind, hq]
    · simpa [alistFind, hq] using ih

/-! ## Decimal-rendering lemmas -/

/-- Decimal digit characters are recognised by `Char.isDigit`. -/
theorem charOfNat_digit : ∀ d : Nat, d < 10 → (Char.ofNat (48 + d)).isDigit = true := by
  decide

/-- A number with `k+1` decimal digits renders to exactly `k+1`
characters (given enough fuel). -/
theorem toDecAux_length :
    ∀ (f k n : Nat) (acc : List Char), 10 ^ k ≤ n → n < 10 ^ (k + 1) → k < f →
      (toDecAux f n acc).length = acc.length + (k + 1) := by
  intro f
  induction f with
  | zero => intro k n acc _ _ hk; omega
  | succ f ih =>
    intro k n acc hlo hhi _
    by_cases hsmall : n < 10
    · have hk0 : k = 0 := by
        by_contra hk
        have : 10 ^ 1 ≤ 10 ^ k := Nat.pow_le_pow_right (by norm_num) (by omega)
        simp at this; omega
      subst hk0
      simp [toDecAux, hsmall]
    · obtain ⟨k', rfl⟩ : ∃ k', k = k' + 1 := by
        rcases Nat.eq_zero_or_pos k with hk | hk
        · subst hk; simp at hhi; omega
        · exact ⟨k - 1, by omega⟩
      have hlo' : 10 ^ k' ≤ n / 10 := by
        rw [Nat.le_div_iff_mul_le (by norm_num)]
        calc 10 ^ k' * 10 = 10 ^ (k' + 1) := by ring
          _ ≤ n := hlo
      have hhi' : n / 10 < 10 ^ (k' + 1) := by
        rw [Nat.div_lt_iff_lt_mul (by norm_num)]
        calc n < 10 ^ (k' + 1 + 1) := hhi
          _ = 10 ^ (k' + 1) * 10 := by ring
      have := ih k' (n / 10) (Char.ofNat (48 + n % 10) :: acc) hlo' hhi' (by omega)
      simp only [toDecAux, if_neg hsmall]
      simp at this ⊢
      omega

/-- Every character `toDecAux` emits is a decimal digit. -/
theorem toDecAux_digits :
    ∀ (f n : Nat) (acc : List Char), (∀ c ∈ acc, c.isDigit = true) →
      ∀ c ∈ toDecAux f n acc, c.isDigit = true := by
  intro f
  induction f with
  | zero => intro n acc hacc; simpa [toDecAux] using hacc
  | succ f ih =>
    intro n acc hacc c hc
    have hacc1 : ∀ c ∈ Char.ofNat (48 + n % 10) :: acc, c.isDigit = true := by
      intro c hc
      rcases List.mem_cons.mp hc with h | h
      · subst h; exact charOfNat_digit _ (Nat.mod_lt _ (by norm_num))
      · exact hacc c h
    by_cases hsmall : n < 10
    · simp only [toDecAux, if_pos hsmall] at hc
      exact hacc1 c hc
    · simp only [toDecAux, if_neg hsmall] at hc
      exact ih (n / 10) _ hacc1 c hc

/-- Rendering `jsNatToString` of a number in `[10^k, 10^(k+1))` has `k+1`
characters. -/
theorem jsNatToString_length {k n : Nat} (hlo : 10 ^ k ≤ n) (hhi : n < 10 ^ (k + 1)) :
    (jsNatToString n).length = k + 1 := by
  have hkn : k < n + 1 := by
    have : k < 10 ^ k := Nat.lt_pow_self (by norm_num) k
    omega
  simpa [jsNatToString, String.length] using
    toDecAux_length (n + 1) k n [] hlo hhi hkn

/-- Every character of `jsNatToString n` is a decimal digit. -/
theorem jsNatToString_digits (n : Nat) :
    ∀ c ∈ (jsNatToString n).data, c.isDigit = true := by
  simpa [jsNatToString] using toDecAux_digits (n + 1) n [] (by simp)

/-- With `0 ≤ r < 1`, the generated tracker id is twelve decimal digits:
the first floor lies in `[100000, 175000)` and the second in
`[100000, 900000)`, so each renders to six digits. -/
theorem generateBrowserTrackerId_spec (r : ℚ) (h0 : 0 ≤ r) (h1 : r < 1) :
    (generateBrowserTrackerId r).length = 12 ∧
    ∀ c ∈ (generateBrowserTrackerId r).data, c.isDigit = true := by
  have hb1 : (100000 : ℤ) ≤ ⌊(100000 : ℚ) + r * 75000⌋ := by
    apply Int.le_floor.mpr; push_cast; nlinarith
  have hb2 : ⌊(100000 : ℚ) + r * 75000⌋ < 175000 := by
    apply Int.floor_lt.mpr; push_cast; nlinarith
  have hc1 : (100000 : ℤ) ≤ ⌊(100000 : ℚ) + r * 800000⌋ := by
    apply Int.le_floor.mpr; push_cast; nlinarith
  have hc2 : ⌊(100000 : ℚ) + r * 800000⌋ < 900000 := by
    apply Int.floor_lt.mpr; push_cast; nlinarith
  have h5 : (10 : ℕ) ^ 5 = 100000 := by norm_num
  have h6 : (10 : ℕ) ^ (5 + 1) = 1000000 := by norm_num
  have ha1 : 10 ^ 5 ≤ (⌊(100000 : ℚ) + r * 75000⌋).toNat := by rw [h5]; omega
  have ha2 : (⌊(100000 : ℚ) + r * 75000⌋).toNat < 10 ^ (5 + 1) := by rw [h6]; omega
  have hd1 : 10 ^ 5 ≤ (⌊(100000 : ℚ) + r * 800000⌋).toNat := by rw [h5]; omega
  have hd2 : (⌊(100000 : ℚ) + r * 800000⌋).toNat < 10 ^ (5 + 1) := by rw [h6]; omega
  constructor
  · have l1 := jsNatToString_length ha1 ha2
    have l2 := jsNatToString_length hd1 hd2
    simp only [generateBrowserTrackerId]
    rw [String.length_append, l1, l2]
  · intro c hc
    simp only [generateBrowserTrackerId, String.data_append] at hc
    rcases List.mem_append.mp hc with h | h
    · exact jsNatToString_digits _ c h
    · exact jsNatToString_digits _ c h

/-! ## Behaviour of `launchGame` when the account exists -/

/-- Characterisation of a `launchGame` call on an existing account: the
override queue and effective server are exactly what the
override-resolution block computes, and the validation split decides the
result, the API call, and the `lastUsedPlaceId` update. -/
theorem launchGame_found (st : ManagerState) (accountName : String)
    (placeId : JSVal) (jobId : String) (r : ℚ) (now : String)
    (apiResult : LaunchResult) (account : Account)
    (hacc : alistFind st.accounts accountName = some account) :
    (launchGame st accountName placeId jobId r now apiResult).state.nextServers =
      (resolveNextServer st.nextServers accountName placeId jobId).2.1 ∧
    (launchGame st accountName placeId jobId r now apiResult).serverUsed =
      (resolveNextServer st.nextServers accountName placeId jobId).1 ∧
    (parseIntOk placeId = false →
      (launchGame st accountName placeId jobId r now apiResult).result =
        ⟨false, "Invalid Place ID. Please enter a valid numeric ID."⟩ ∧
      (launchGame st accountName placeId jobId r now apiResult).apiCalled = false ∧
      (launchGame st accountName placeId jobId r now apiResult).state.lastUsedPlaceId =
        st.lastUsedPlaceId) ∧
    (parseIntOk placeId = true →
      (launchGame st accountName placeId jobId r now apiResult).result = apiResult ∧
      (launchGame st accountName placeId jobId r now apiResult).apiCalled = true ∧
      (launchGame st accountName placeId jobId r now apiResult).state.lastUsedPlaceId =
        some placeId) := by
  by_cases hv : parseIntOk placeId = false <;>
    by_cases ht : optStrFalsy account.browserTrackerId <;>
      simp [launchGame, hacc, hv, ht]

/-! ## Override-resolution case lemmas -/

/-- With no explicit job id, a queued entry whose place id loosely
matches is consumed. -/
theorem resolveNextServer_consume (ns : List (String × ServerInfo))
    (accountName : String) (placeId : JSVal) (si : ServerInfo)
    (hfind : alistFind ns accountName = some si)
    (hmatch : looseEq si.placeId placeId = true) :
    resolveNextServer ns accountName placeId "" =
      (si.jobId, alistErase ns accountName, 1) := by
  simp [resolveNextServer, hfind, hmatch]

/-- With no explicit job id, a queued entry whose place id does not
match is left untouched. -/
theorem resolveNextServer_mismatch (ns : List (String × ServerInfo))
    (accountName : String) (placeId : JSVal) (si : ServerInfo)
    (hfind : alistFind ns accountName = some si)
    (hmatch : looseEq si.placeId placeId = false) :
    resolveNextServer ns accountName placeId "" = ("", ns, 0) := by
  simp [resolveNextServer, hfind, hmatch]

/-- With no explicit job id and no queued entry, nothing happens. -/
theorem resolveNextServer_absent (ns : List (String × ServerInfo))
    (accountName : String) (placeId : JSVal)
    (hfind : alistFind ns accountName = none) :
    resolveNextServer ns accountName placeId "" = ("", ns, 0) := by
  simp [resolveNextServer, hfind]

/-- An explicit (nonempty) job id always wins: the queue is not even
consulted. -/
theorem resolveNextServer_explicit (ns : List (String × ServerInfo))
    (accountName : String) (placeId : JSVal) (jobId : String)
    (hj : jobId ≠ "") :
    resolveNextServer ns accountName placeId jobId = (jobId, ns, 0) := by
  simp [resolveNextServer, hj]

/-- A string that coerces to `n` is loosely equal to the number `n`. -/
theorem looseEq_str_num (s : String) (n : Int) (h : strToNumber s = some n) :
    looseEq (.str s) (.num n) = true := by
  simp [looseEq, h]

/-- The number `n` is loosely equal to any string that coerces to `n`. -/
theorem looseEq_num_str (s : String) (n : Int) (h : strToNumber s = some n) :
    looseEq (.num n) (.str s) = true := by
  simp [looseEq, h]

/-! ## Concrete fixtures used by counterexamples and witnesses -/

/-- A stored credential that has not launched yet (no tracker id). -/
def acctPlain : Account :=
  ⟨"alice", .num 1, "tokA", "", "t0", none, none, none, none, none⟩

/-- A stored credential that already has a tracker id. -/
def acctTracked : Account :=
  ⟨"bob", .num 2, "tokB", "", "t0", none, some "123456789012", none, none, none⟩

/-- Registry holding only `alice`. -/
def stAlice : ManagerState := ⟨[("alice", acctPlain)], none, []⟩

/-- Registry holding `bob` with a pending override for place `5`. -/
def stBob : ManagerState :=
  ⟨[("bob", acctTracked)], none, [("bob", ⟨.num 5, "J5", "t1"⟩)]⟩

/-- Registry holding `bob` with a pending override whose stored place id
is the non-numeric string `"abc"`. -/
def stBobStr : ManagerState :=
  ⟨[("bob", acctTracked)], none, [("bob", ⟨.str "abc", "SRV", "t1"⟩)]⟩

/-- Registry holding `bob` with a pending override whose stored place id
is the numeric string `"123"`. -/
def stBobNumStr : ManagerState :=
  ⟨[("bob", acctTracked)], none, [("bob", ⟨.str "123", "J123", "t1"⟩)]⟩

/-- A reachable state with a dangling override: `ghost` is added, an
override is queued for it, and the account is then deleted
(`deleteAccount` does not clear the queue). -/
def stGhost : ManagerState :=
  (deleteAccount
    (setNextServerForAccount
      (addAccount emptyManagerState (some ⟨some "ghost", some (.num 7)⟩)
        "r8" "tokG" "" "t0").state
      "ghost" (.num 5) "J5" "t1").state
    "ghost").state

/-- A reachable state holding `carol` and a pending override for her. -/
def stCarol : ManagerState :=
  (setNextServerForAccount
    (addAccount emptyManagerState (some ⟨some "carol", some (.num 3)⟩)
      "r8" "tokC" "" "t0").state
    "carol" (.num 9) "J9" "t1").state

/-! ## Claims -/

/-- Claim C1, counterexample: the registry holds `alice`; an add whose
remote lookup reports the same name computes the key `alice` and
silently replaces the existing record (the stored record afterwards is
no longer `acctPlain`), contradicting "an existing record is never
overwritten by a later add with the same key". -/
theorem addAccount_collision_cex :
    (addAccount stAlice (some ⟨some "alice", some (.num 1)⟩) "r8" "tokB" "" "t9").ret
      = "alice" ∧
    alistFind stAlice.accounts "alice" = some acctPlain ∧
    alistFind (addAccount stAlice (some ⟨some "alice", some (.num 1)⟩)
        "r8" "tokB" "" "t9").state.accounts "alice" ≠ some acctPlain := by
  decide

/-- Claim C1 (amended): a colliding add silently replaces the existing
record, last-write-wins: when the computed account key is already
present, the stored record under that key afterwards is the newly built
one, and the key sequence (hence key uniqueness) is unchanged. -/
theorem addAccount_collision_overwrites (st : ManagerState) (i : AccountInfo)
    (randId tok pwd now : String)
    (h : (alistFind st.accounts
        (addAccount st (some i) randId tok pwd now).ret).isSome = true) :
    alistFind (addAccount st (some i) randId tok pwd now).state.accounts
        (addAccount st (some i) randId tok pwd now).ret =
      some (mkAddedAccount (strOr i.name "Unknown") (jsvalOr i.id (.str randId))
        tok pwd now) ∧
    (addAccount st (some i) randId tok pwd now).state.accounts.map Prod.fst =
      st.accounts.map Prod.fst := by
  constructor
  · simp only [addAccount]
    exact alistFind_insert_self _ _ _
  · simp only [addAccount] at h ⊢
    exact alistInsert_keys _ _ _ h

/-- Witness for `addAccount_collision_overwrites` at the concrete
collision of `addAccount_collision_cex`. -/
theorem addAccount_collision_overwrites_witness :
    ((alistFind stAlice.accounts
        (addAccount stAlice (some ⟨some "alice", some (.num 1)⟩)
          "r8" "tokB" "" "t9").ret).isSome = true) ∧
    (alistFind (addAccount stAlice (some ⟨some "alice", some (.num 1)⟩)
        "r8" "tokB" "" "t9").state.accounts
        (addAccount stAlice (some ⟨some "alice", some (.num 1)⟩)
          "r8" "tokB" "" "t9").ret =
      some (mkAddedAccount (strOr (some "alice") "Unknown")
        (jsvalOr (some (.num 1)) (.str "r8")) "tokB" "" "t9") ∧
    (addAccount stAlice (some ⟨some "alice", some (.num 1)⟩)
        "r8" "tokB" "" "t9").state.accounts.map Prod.fst =
      stAlice.accounts.map Prod.fst) :=
  ⟨by decide,
   addAccount_collision_overwrites stAlice ⟨some "alice", some (.num 1)⟩
     "r8" "tokB" "" "t9" (by decide)⟩

/-- Claim C3 (code bug): on the reachable state `stCarol` (account
`carol` with a pending override), `deleteAccount "carol"` returns
`true`, removes the record and persists — but the pending override for
`carol` is still in the queue afterwards, the dangling entry the spec
forbids. -/
theorem deleteAccount_leaves_override :
    (deleteAccount stCarol "carol").ret = true ∧
    alistFind (deleteAccount stCarol "carol").state.accounts "carol" = none ∧
    (deleteAccount stCarol "carol").saves = 1 ∧
    alistFind (deleteAccount stCarol "carol").state.nextServers "carol" =
      some ⟨.num 9, "J9", "t1"⟩ := by
  decide

/-- Claim C5 (confirmed): a launch naming an account key that is not in
the registry returns the failure message naming that account and does
nothing else — the whole manager state is unchanged, no save is
performed and the API (network) stage is never invoked. -/
theorem launchGame_missing_account (st : ManagerState) (accountName : String)
    (placeId : JSVal) (jobId : String) (r : ℚ) (now : String)
    (apiResult : LaunchResult)
    (h : alistFind st.accounts accountName = none) :
    launchGame st accountName placeId jobId r now apiResult =
      ⟨⟨false, "Account \"" ++ accountName ++ "\" not found"⟩, st, 0, false, jobId⟩ := by
  simp [launchGame, h]

/-- Witness for `launchGame_missing_account` on a concrete registry that
does not contain `nobody`. -/
theorem launchGame_missing_account_witness :
    (alistFind stAlice.accounts "nobody" = none) ∧
    launchGame stAlice "nobody" (.num 5) "" 0 "t9" ⟨true, "ok"⟩ =
      ⟨⟨false, "Account \"" ++ "nobody" ++ "\" not found"⟩, stAlice, 0, false, ""⟩ :=
  ⟨by decide,
   launchGame_missing_account stAlice "nobody" (.num 5) "" 0 "t9" ⟨true, "ok"⟩
     (by decide)⟩

set_option maxRecDepth 8000 in
/-- Claim C6 (confirmed): the launch directive built from ticket `T`,
tracker `123456789012`, epoch `1700000000` and base URL
`https://example/x?y=1` is byte-for-byte the fixed template, with the
`+`-delimited segments in the fixed order and the base URL
percent-encoded. -/
theorem formatLaunchURL_template :
    formatLaunchURL "https://example/x?y=1" "T" "123456789012" 1700000000 =
      "roblox-player:1+launchmode:play+gameinfo:T+launchtime:1700000000+placelauncherurl:https%3A%2F%2Fexample%2Fx%3Fy%3D1+browsertrackerid:123456789012+robloxLocale:en_us+gameLocale:en_us+channel:+LaunchExp:InApp" := by
  decide

/-- Claim C2, counterexample: on the reachable state `stGhost` (override
queued for `ghost`, account since deleted) a launch for `ghost` with no
explicit server id and a matching target does *not* consume the
override — the claimed "exactly when" equivalence fails because the
account-existence check precedes override resolution. -/
theorem launchGame_override_exactly_cex :
    alistFind stGhost.accounts "ghost" = none ∧
    alistFind stGhost.nextServers "ghost" = some ⟨.num 5, "J5", "t1"⟩ ∧
    looseEq (JSVal.num 5) (JSVal.num 5) = true ∧
    (launchGame stGhost "ghost" (.num 5) "" 0 "t2" ⟨true, "ok"⟩).state.nextServers =
      stGhost.nextServers ∧
    (launchGame stGhost "ghost" (.num 5) "" 0 "t2" ⟨true, "ok"⟩).serverUsed = "" := by
  decide

/-- Claim C2 (amended): for a launch request whose account exists in the
registry, the pending override is substituted and removed exactly when
no explicit server id is supplied and the stored target loosely matches
the request's target; in every other case the entry is left untouched
and the explicit/empty job id is used. -/
theorem launchGame_override_consumption (st : ManagerState)
    (accountName : String) (placeId : JSVal) (jobId : String) (r : ℚ)
    (now : String) (apiResult : LaunchResult) (account : Account)
    (hacc : alistFind st.accounts accountName = some account) :
    (∀ si, alistFind st.nextServers accountName = some si →
      ((jobId = "" ∧ looseEq si.placeId placeId = true) →
        (launchGame st accountName placeId jobId r now apiResult).state.nextServers =
          alistErase st.nextServers accountName ∧
        (launchGame st accountName placeId jobId r now apiResult).serverUsed =
          si.jobId) ∧
      (¬(jobId = "" ∧ looseEq si.placeId placeId = true) →
        (launchGame st accountName placeId jobId r now apiResult).state.nextServers =
          st.nextServers ∧
        (launchGame st accountName placeId jobId r now apiResult).serverUsed =
          jobId)) ∧
    (alistFind st.nextServers accountName = none →
      (launchGame st accountName placeId jobId r now apiResult).state.nextServers =
        st.nextServers ∧
      (launchGame st accountName placeId jobId r now apiResult).serverUsed =
        jobId) := by
  obtain ⟨hns, hsrv, -, -⟩ :=
    launchGame_found st accountName placeId jobId r now apiResult account hacc
  constructor
  · intro si hsi
    constructor
    · rintro ⟨rfl, hmatch⟩
      rw [hns, hsrv, resolveNextServer_consume _ _ _ _ hsi hmatch]
      exact ⟨rfl, rfl⟩
    · intro hnot
      by_cases hj : jobId = ""
      · subst hj
        have hmatch : looseEq si.placeId placeId = false := by
          rcases Bool.eq_false_or_eq_true (looseEq si.placeId placeId) with h | h
          · exact absurd ⟨rfl, h⟩ hnot
          · exact h
        rw [hns, hsrv, resolveNextServer_mismatch _ _ _ _ hsi hmatch]
        exact ⟨rfl, rfl⟩
      · rw [hns, hsrv, resolveNextServer_explicit _ _ _ _ hj]
        exact ⟨rfl, rfl⟩
  · intro hnone
    by_cases hj : jobId = ""
    · subst hj
      rw [hns, hsrv, resolveNextServer_absent _ _ _ hnone]
      exact ⟨rfl, rfl⟩
    · rw [hns, hsrv, resolveNextServer_explicit _ _ _ _ hj]
      exact ⟨rfl, rfl⟩

/-- Witness for `launchGame_override_consumption`: on `stBob` the
matching override for place `5` is consumed and its job id `J5` used. -/
theorem launchGame_override_consumption_witness :
    (alistFind stBob.accounts "bob" = some acctTracked) ∧
    (alistFind stBob.nextServers "bob" = some ⟨.num 5, "J5", "t1"⟩) ∧
    ((launchGame stBob "bob" (.num 5) "" 0 "t2" ⟨true, "ok"⟩).state.nextServers =
      alistErase stBob.nextServers "bob" ∧
    (launchGame stBob "bob" (.num 5) "" 0 "t2" ⟨true, "ok"⟩).serverUsed = "J5") :=
  ⟨by decide, by decide,
   ((launchGame_override_consumption stBob "bob" (.num 5) "" 0 "t2" ⟨true, "ok"⟩
       acctTracked (by decide)).1 ⟨.num 5, "J5", "t1"⟩ (by decide)).1
     ⟨rfl, by decide⟩⟩

/-- Claim C4, counterexample: with `bob`'s override stored under the
non-numeric place id `"abc"`, a launch against `"abc"` does return the
invalid-place message without any API call — but only *after* consuming
the matching override and writing persistence once, so validation is not
the first step and the failing path mutates the registry.  Moreover the
target `"-5"`, which does not parse as a *positive* integer, passes the
`parseInt` check: the launch proceeds to the API call instead of
returning the invalid-target failure. -/
theorem launchGame_validation_order_cex :
    (launchGame stBobStr "bob" (.str "abc") "" 0 "t2" ⟨true, "ok"⟩).result =
      ⟨false, "Invalid Place ID. Please enter a valid numeric ID."⟩ ∧
    (launchGame stBobStr "bob" (.str "abc") "" 0 "t2" ⟨true, "ok"⟩).apiCalled = false ∧
    (launchGame stBobStr "bob" (.str "abc") "" 0 "t2" ⟨true, "ok"⟩).state.nextServers = [] ∧
    (launchGame stBobStr "bob" (.str "abc") "" 0 "t2" ⟨true, "ok"⟩).serverUsed = "SRV" ∧
    (launchGame stBobStr "bob" (.str "abc") "" 0 "t2" ⟨true, "ok"⟩).saves = 1 ∧
    (launchGame stBobStr "bob" (.str "-5") "" 0 "t2" ⟨true, "ok"⟩).result = ⟨true, "ok"⟩ ∧
    (launchGame stBobStr "bob" (.str "-5") "" 0 "t2" ⟨true, "ok"⟩).apiCalled = true := by
  decide

/-- Claim C4 (amended): for an existing account, a target id with no
parseable leading integer (`parseInt` yields NaN) makes the launch
return the invalid-place failure without any API (network) call and
without updating the last-used target — but this validation runs *after*
override resolution and tracker-id assignment, which may already have
mutated and persisted the registry (see
`launchGame_validation_order_cex`). -/
theorem launchGame_invalid_target (st : ManagerState) (accountName : String)
    (placeId : JSVal) (jobId : String) (r : ℚ) (now : String)
    (apiResult : LaunchResult) (account : Account)
    (hacc : alistFind st.accounts accountName = some account)
    (hbad : parseIntOk placeId = false) :
    (launchGame st accountName placeId jobId r now apiResult).result =
      ⟨false, "Invalid Place ID. Please enter a valid numeric ID."⟩ ∧
    (launchGame st accountName placeId jobId r now apiResult).apiCalled = false ∧
    (launchGame st accountName placeId jobId r now apiResult).state.lastUsedPlaceId =
      st.lastUsedPlaceId := by
  obtain ⟨-, -, hinv, -⟩ :=
    launchGame_found st accountName placeId jobId r now apiResult account hacc
  exact hinv hbad

/-- Witness for `launchGame_invalid_target` at the concrete non-numeric
target `"abc"`. -/
theorem launchGame_invalid_target_witness :
    (alistFind stBobStr.accounts "bob" = some acctTracked) ∧
    (parseIntOk (.str "abc") = false) ∧
    ((launchGame stBobStr "bob" (.str "abc") "" 0 "t2" ⟨true, "ok"⟩).result =
      ⟨false, "Invalid Place ID. Please enter a valid numeric ID."⟩ ∧
    (launchGame stBobStr "bob" (.str "abc") "" 0 "t2" ⟨true, "ok"⟩).apiCalled = false ∧
    (launchGame stBobStr "bob" (.str "abc") "" 0 "t2" ⟨true, "ok"⟩).state.lastUsedPlaceId =
      stBobStr.lastUsedPlaceId) :=
  ⟨by decide, by decide,
   launchGame_invalid_target stBobStr "bob" (.str "abc") "" 0 "t2" ⟨true, "ok"⟩
     acctTracked (by decide) (by decide)⟩

/-- A 403 response carrying the anti-forgery token header. -/
def respCSRF : HttpResponse := ⟨403, [("X-CSRF-TOKEN", "tok")]⟩

/-- A 403 response with no headers at all. -/
def respEmpty : HttpResponse := ⟨403, []⟩

/-- A response that lacks the authentication-ticket header. -/
def respNoTicket : HttpResponse := ⟨200, [("content-type", "json")]⟩

/-- Claim C7 (confirmed): the handshake-token/launch-ticket error chain.
A token is returned only for the expected-rejected status 403 carrying
the `x-csrf-token` header; a transport failure or a missing header gives
no token; when the handshake fails, `getAuthTicket` fails without ever
issuing the ticket request; and a ticket response with no
(case-insensitively matched) `rbx-authentication-ticket` header also
yields no ticket. -/
theorem auth_token_ticket_chain :
    (∀ (resp : Option HttpResponse) (tok : String),
      getCSRFToken resp = some tok →
      ∃ r, resp = some r ∧ r.status = 403 ∧
        (headersGet r.headers "x-csrf-token").isSome = true) ∧
    (getCSRFToken none = none) ∧
    (∀ r : HttpResponse, headersGet r.headers "x-csrf-token" = none →
      getCSRFToken (some r) = none) ∧
    (∀ c t : Option HttpResponse, getCSRFToken c = none →
      getAuthTicket c t = (none, false)) ∧
    (∀ (c : Option HttpResponse) (r : HttpResponse),
      lowerHeaderLookup r.headers "rbx-authentication-ticket" = none →
      (getAuthTicket c (some r)).1 = none) := by
  refine ⟨?_, rfl, ?_, ?_, ?_⟩
  · intro resp tok h
    cases resp with
    | none => simp [getCSRFToken] at h
    | some r =>
      refine ⟨r, rfl, ?_, ?_⟩
      · by_cases hs : r.status = 403
        · exact hs
        · simp [getCSRFToken, hs] at h
      · by_cases hs : r.status = 403
        · cases hh : headersGet r.headers "x-csrf-token" with
          | none => simp [getCSRFToken, hs, hh] at h
          | some v => simp [hh]
        · simp [getCSRFToken, hs] at h
  · intro r h
    simp only [getCSRFToken, h]
    split <;> rfl
  · intro c t h
    simp [getAuthTicket, h]
  · intro c r h
    cases hc : getCSRFToken c with
    | none => simp [getAuthTicket, hc]
    | some tok => simp [getAuthTicket, hc, h]

/-- Witness for `auth_token_ticket_chain` on concrete responses. -/
theorem auth_token_ticket_chain_witness :
    (getCSRFToken (some respCSRF) = some "tok") ∧
    (∃ r, some respCSRF = some r ∧ r.status = 403 ∧
      (headersGet r.headers "x-csrf-token").isSome = true) ∧
    (headersGet respEmpty.headers "x-csrf-token" = none) ∧
    (getCSRFToken (some respEmpty) = none) ∧
    (getCSRFToken none = none) ∧
    (getAuthTicket none (some respCSRF) = (none, false)) ∧
    (lowerHeaderLookup respNoTicket.headers "rbx-authentication-ticket" = none) ∧
    ((getAuthTicket (some respCSRF) (some respNoTicket)).1 = none) :=
  ⟨by decide,
   auth_token_ticket_chain.1 (some respCSRF) "tok" (by decide),
   by decide,
   auth_token_ticket_chain.2.2.1 respEmpty (by decide),
   auth_token_ticket_chain.2.1,
   auth_token_ticket_chain.2.2.2.1 none (some respCSRF) (by decide),
   by decide,
   auth_token_ticket_chain.2.2.2.2 (some respCSRF) respNoTicket (by decide)⟩

/-- Claim C8 (confirmed): a legacy-format snapshot — the top-level
object is the bare account mapping, with no `accounts` key — loads with
every entry becoming a Credential Record under its key (via the
`Account` constructor), an empty override queue, and no last-used
target. -/
theorem legacy_snapshot_load (now : String)
    (entries : List (String × AccountJSON)) :
    (initializeManager now (some (.legacy entries))).nextServers = [] ∧
    (initializeManager now (some (.legacy entries))).lastUsedPlaceId = none ∧
    ∀ k, alistFind (initializeManager now (some (.legacy entries))).accounts k =
      (alistFind entries k).map (accountFromData now) := by
  refine ⟨rfl, rfl, fun k => ?_⟩
  simp only [initializeManager]
  exact alistFind_map (accountFromData now) entries k

/-- Claim C9 (confirmed): the browser tracker id is a 12-decimal-digit
string; a launch on an existing account assigns it exactly when it was
absent (JS-falsy) and otherwise leaves it unchanged; and a nonempty
tracker id survives the `toJSON` → `Account`-constructor round trip. -/
theorem trackerId_lifecycle :
    (∀ r : ℚ, 0 ≤ r → r < 1 →
      (generateBrowserTrackerId r).length = 12 ∧
      ∀ c ∈ (generateBrowserTrackerId r).data, c.isDigit = true) ∧
    (∀ (st : ManagerState) (accountName : String) (placeId : JSVal)
        (jobId : String) (r : ℚ) (now : String) (apiResult : LaunchResult)
        (account : Account),
      alistFind st.accounts accountName = some account →
      ∃ a', alistFind (launchGame st accountName placeId jobId r now
              apiResult).state.accounts accountName = some a' ∧
        a'.browserTrackerId =
          (if optStrFalsy account.browserTrackerId then
            some (generateBrowserTrackerId r)
          else account.browserTrackerId)) ∧
    (∀ (a : Account) (s now : String), a.browserTrackerId = some s → s ≠ "" →
      (accountFromData now a.toJSON).browserTrackerId = some s) := by
  refine ⟨generateBrowserTrackerId_spec, ?_, ?_⟩
  · intro st accountName placeId jobId r now apiResult account hacc
    by_cases ht : optStrFalsy account.browserTrackerId
    · by_cases hv : parseIntOk placeId = false
      · simp only [launchGame, hacc]
        simp [ht, hv]
        exact ⟨_, alistFind_insert_self _ _ _, by simp⟩
      · simp only [launchGame, hacc]
        simp [ht, hv]
        exact ⟨_, alistFind_insert_self _ _ _, by simp⟩
    · by_cases hv : parseIntOk placeId = false
      · simp only [launchGame, hacc]
        simp [ht, hv]
        exact ⟨account, hacc, by simp⟩
      · simp only [launchGame, hacc]
        simp [ht, hv]
        exact ⟨_, alistFind_insert_self _ _ _, by simp⟩
  · intro a s now h hne
    simp [accountFromData, Account.toJSON, strOrNull, h, hne]

/-- Witness for `trackerId_lifecycle`: the draw `r = 0`, a launch for
`alice` (who has no tracker id yet), and the round trip of `bob`'s
stored tracker id. -/
theorem trackerId_lifecycle_witness :
    (((0 : ℚ) ≤ 0) ∧ ((0 : ℚ) < 1) ∧ (generateBrowserTrackerId 0).length = 12) ∧
    ((alistFind stAlice.accounts "alice" = some acctPlain) ∧
      ∃ a', alistFind (launchGame stAlice "alice" (.num 5) "" 0 "t2"
              ⟨true, "ok"⟩).state.accounts "alice" = some a' ∧
        a'.browserTrackerId =
          (if optStrFalsy acctPlain.browserTrackerId then
            some (generateBrowserTrackerId 0)
          else acctPlain.browserTrackerId)) ∧
    ((acctTracked.browserTrackerId = some "123456789012") ∧
      (accountFromData "t9" acctTracked.toJSON).browserTrackerId =
        some "123456789012") :=
  ⟨⟨le_refl 0, zero_lt_one, (trackerId_lifecycle.1 0 (le_refl 0) zero_lt_one).1⟩,
   ⟨by decide,
    trackerId_lifecycle.2.1 stAlice "alice" (.num 5) "" 0 "t2" ⟨true, "ok"⟩
      acctPlain (by decide)⟩,
   ⟨by decide,
    trackerId_lifecycle.2.2 acctTracked "123456789012" "t9" (by decide)
      (by decide)⟩⟩

/-- Registry holding `bob` with a pending override whose stored place id
is the number `7`. -/
def stBobNum : ManagerState :=
  ⟨[("bob", acctTracked)], none, [("bob", ⟨.num 7, "J7", "t1"⟩)]⟩

/-- Claim C10 (confirmed): the override-target match uses loose
(type-coercing) equality, so for any string/number pair equal after
numeric coercion the pending override is matched and consumed in both
directions: a stored string target is consumed by a numeric launch
target, and a stored numeric target by a string launch target. -/
theorem override_loose_match :
    (∀ (s : String) (n : Int), strToNumber s = some n →
      looseEq (.str s) (.num n) = true ∧ looseEq (.num n) (.str s) = true) ∧
    (∀ (st : ManagerState) (accountName s : String) (n : Int)
        (si : ServerInfo) (r : ℚ) (now : String) (apiResult : LaunchResult)
        (account : Account),
      alistFind st.accounts accountName = some account →
      alistFind st.nextServers accountName = some si →
      si.placeId = .str s → strToNumber s = some n →
      (launchGame st accountName (.num n) "" r now apiResult).state.nextServers =
        alistErase st.nextServers accountName ∧
      (launchGame st accountName (.num n) "" r now apiResult).serverUsed =
        si.jobId) ∧
    (∀ (st : ManagerState) (accountName s : String) (n : Int)
        (si : ServerInfo) (r : ℚ) (now : String) (apiResult : LaunchResult)
        (account : Account),
      alistFind st.accounts accountName = some account →
      alistFind st.nextServers accountName = some si →
      si.placeId = .num n → strToNumber s = some n →
      (launchGame st accountName (.str s) "" r now apiResult).state.nextServers =
        alistErase st.nextServers accountName ∧
      (launchGame st accountName (.str s) "" r now apiResult).serverUsed =
        si.jobId) := by
  refine ⟨?_, ?_, ?_⟩
  · intro s n h
    exact ⟨looseEq_str_num s n h, looseEq_num_str s n h⟩
  · intro st accountName s n si r now apiResult account hacc hsi hpe hnum
    obtain ⟨hns, hsrv, -, -⟩ :=
      launchGame_found st accountName (.num n) "" r now apiResult account hacc
    rw [hns, hsrv, resolveNextServer_consume _ _ _ _ hsi
      (by rw [hpe]; exact looseEq_str_num s n hnum)]
    exact ⟨rfl, rfl⟩
  · intro st accountName s n si r now apiResult account hacc hsi hpe hnum
    obtain ⟨hns, hsrv, -, -⟩ :=
      launchGame_found st accountName (.str s) "" r now apiResult account hacc
    rw [hns, hsrv, resolveNextServer_consume _ _ _ _ hsi
      (by rw [hpe]; exact looseEq_num_str s n hnum)]
    exact ⟨rfl, rfl⟩

/-- Witness for `override_loose_match`: the stored string `"123"` is
consumed by the numeric launch target `123`, and the stored number `7`
by the string launch target `"7"`. -/
theorem override_loose_match_witness :
    (strToNumber "123" = some 123) ∧
    (looseEq (.str "123") (.num 123) = true ∧
      looseEq (.num 123) (.str "123") = true) ∧
    ((launchGame stBobNumStr "bob" (.num 123) "" 0 "t2"
        ⟨true, "ok"⟩).state.nextServers =
      alistErase stBobNumStr.nextServers "bob" ∧
    (launchGame stBobNumStr "bob" (.num 123) "" 0 "t2" ⟨true, "ok"⟩).serverUsed =
      "J123") ∧
    ((launchGame stBobNum "bob" (.str "7") "" 0 "t2"
        ⟨true, "ok"⟩).state.nextServers =
      alistErase stBobNum.nextServers "bob" ∧
    (launchGame stBobNum "bob" (.str "7") "" 0 "t2" ⟨true, "ok"⟩).serverUsed =
      "J7") :=
  ⟨by decide,
   override_loose_match.1 "123" 123 (by decide),
   override_loose_match.2.1 stBobNumStr "bob" "123" 123
     ⟨.str "123", "J123", "t1"⟩ 0 "t2" ⟨true, "ok"⟩ acctTracked
     (by decide) (by decide) rfl (by decide),
   override_loose_match.2.2 stBobNum "bob" "7" 7
     ⟨.num 7, "J7", "t1"⟩ 0 "t2" ⟨true, "ok"⟩ acctTracked
     (by decide) (by decide) rfl (by decide)⟩
